import Mathlib

/-
Shallow embedding of radioflux.py: a tool measuring integrated radio-source
flux density from FITS images.  Header values are modelled over the rationals
(Python floats idealised as exact arithmetic); real-valued quantities that
involve pi, sqrt and log (the beam solid angle and the propagated error) are
modelled over the reals.  Python exceptions are modelled by an explicit error
type; fallible code returns Except.
-/

/-- Python exceptions that the translated code can raise.  `radioError` is the
module exception class; the others are builtin Python exception kinds that the
source can hit (an unbound local name, None used in arithmetic, float() on a
malformed token, an out-of-range list index, a missing mandatory header key). -/
inductive PyError
  | radioError (msg : String)
  | nameError
  | typeError
  | valueError
  | indexError
  | keyError
deriving DecidableEq

/-- FITS header, as the source consumes it: the mandatory integer NAXIS card,
numeric-valued cards (BMAJ, BMIN, RESOL1, RESOL2, CDELT1, CDELT2, EQUINOX,
EPOCH, ...), string-valued cards (BUNIT, UNIT, CTYPE1, ...) and the free-text
HISTORY log (absent HISTORY models the KeyError branch of the source).
Strings handled character-wise are modelled as lists of characters. -/
structure Header where
  naxis : Option Nat
  cards : List (String × ℚ)
  scards : List (String × List Char)
  history : Option (List (List Char))
deriving DecidableEq

/-- Numeric card lookup, the dict-like `header.get(key)` of the source. -/
def Header.card (h : Header) (k : String) : Option ℚ :=
  h.cards.lookup k

/-- String card lookup, `header.get(key)` for string-valued cards. -/
def Header.scard (h : Header) (k : String) : Option (List Char) :=
  h.scards.lookup k

/-- An N-dimensional numpy array: its shape and its row-major flat storage.
This mirrors numpy memory layout, so that basic integer indexing and slicing
can be modelled on the flat representation. -/
structure NDData where
  shape : List Nat
  flat : List ℚ
deriving DecidableEq

/-- Number of cells of a shape (product of the dimensions). -/
def shapeSize : List Nat → Nat
  | [] => 1
  | s :: ss => s * shapeSize ss

/-- Row-major flat offset of a multi-index within a shape. -/
def flatIndex : List Nat → List Nat → Nat
  | [], _ => 0
  | _, [] => 0
  | _ :: ss, i :: is => i * shapeSize ss + flatIndex ss is

/-- Integer indexing `a[0]` on the first axis of an N-d array: the result is
the leading block of `shapeSize tail` cells of the flat storage, with the
first axis removed from the shape. -/
def slice0 (d : NDData) : NDData :=
  ⟨d.shape.tail, d.flat.take (shapeSize d.shape.tail)⟩

/-- Applying the numpy basic-indexing tuple `(0,)*k + (:, :)`: index 0 is
taken on the first k axes in turn; trailing full slices keep the remaining
axes untouched.  This is `f[0].data[slice]` of flatten with k = naxis-2. -/
def sliceTo2D : Nat → NDData → NDData
  | 0, d => d
  | k + 1, d => sliceTo2D k (slice0 d)

/-- One FITS HDU as the source uses it: header plus data grid. -/
structure FitsHDU where
  header : Header
  data : NDData
deriving DecidableEq

/-- Header keys whose values the 2-axis WCS round-trip of flatten preserves. -/
def wcsKeys : List String :=
  ["CRPIX1", "CRPIX2", "CDELT1", "CDELT2", "CRVAL1", "CRVAL2"]

/-- The truthiness-guarded copy of a scalar key in flatten
(`r=f[0].header.get(k); if r: header[k]=r`): a value of 0 is falsy in Python
and is not copied. -/
def copyTruthy (h : Header) (k : String) : List (String × ℚ) :=
  match h.card k with
  | some r => if r ≠ 0 then [(k, r)] else []
  | none => []

/-- Modelled from the spec: the 2-axis header that flatten rebuilds through
the external astropy WCS object (copy reference pixel, pixel scale, reference
value and axis type of the first two axes), then NAXIS set to 2 and EQUINOX
and EPOCH copied when present and truthy.  No claim inspects this header. -/
def flatHeader (h : Header) : Header :=
  ⟨some 2,
   (h.cards.filter fun kv => wcsKeys.contains kv.1) ++
     copyTruthy h "EQUINOX" ++ copyTruthy h "EPOCH",
   h.scards.filter fun kv => kv.1 == "CTYPE1" || kv.1 == "CTYPE2",
   none⟩

/-- flatten: reduce a FITS file to a 2D image, returning new header and data.
Mirrors the source: read NAXIS (KeyError when absent), raise RadioError below
2 axes, pass header and data through unchanged at exactly 2 axes, otherwise
rebuild a 2-axis header and slice the data with `(0,)*(naxis-2)+(:,:)`.  The
source message contains an apostrophe, rendered here without it. -/
def flatten (f : FitsHDU) : Except PyError (Header × NDData) :=
  match f.header.naxis with
  | none => .error .keyError
  | some naxis =>
    if naxis < 2 then .error (.radioError "Cant make map from this")
    else if naxis = 2 then .ok (f.header, f.data)
    else .ok (flatHeader f.header, sliceTo2D (naxis - 2) f.data)

/-- Whitespace test used by Python str.split() with no argument. -/
def isWS (c : Char) : Bool :=
  c == ' ' || c == '\t' || c == '\n' || c == '\r'

/-- Accumulator recursion behind splitWS. -/
def wordsAux : List Char → List Char → List (List Char)
  | [], acc => if acc.isEmpty then [] else [acc.reverse]
  | c :: rest, acc =>
    if isWS c then
      if acc.isEmpty then wordsAux rest [] else acc.reverse :: wordsAux rest []
    else wordsAux rest (c :: acc)

/-- Python `line.split()`: split on runs of whitespace, dropping empty words. -/
def splitWS (cs : List Char) : List (List Char) :=
  wordsAux cs []

/-- Python substring test `pat in line`. -/
def strContains (pat : List Char) : List Char → Bool
  | [] => pat.isEmpty
  | c :: t => pat.isPrefixOf (c :: t) || strContains pat t

/-- Value of a string of decimal digits. -/
def digitsToNat (ds : List Char) : Nat :=
  ds.foldl (fun a c => 10 * a + (c.toNat - 48)) 0

/-- All characters are decimal digits. -/
def allDigits (ds : List Char) : Bool :=
  ds.all fun c => c.isDigit

/-- Unsigned part of Python float() parsing, restricted to the plain decimal
forms `digits`, `digits.digits`, `digits.` and `.digits` that the CLEAN
history lines use; exponent and infinity forms are not modelled.  Returns
none where Python float() raises ValueError. -/
def parseUFloat (cs : List Char) : Option ℚ :=
  let intPart := cs.takeWhile fun c => c ≠ '.'
  match cs.dropWhile fun c => c ≠ '.' with
  | [] => if allDigits cs && !cs.isEmpty then some (digitsToNat cs : ℚ) else none
  | _ :: frac =>
    if allDigits intPart && allDigits frac && (!intPart.isEmpty || !frac.isEmpty) then
      some ((digitsToNat intPart : ℚ) + (digitsToNat frac : ℚ) / 10 ^ frac.length)
    else none

/-- Python float() on one token, with an optional sign. -/
def parseFloat (cs : List Char) : Option ℚ :=
  match cs with
  | [] => parseUFloat []
  | c :: rest =>
    if c = '-' then (parseUFloat rest).map Neg.neg
    else if c = '+' then parseUFloat rest
    else parseUFloat (c :: rest)

/-- The marker substring scanned for in the header history log. -/
def cleanMarker : List Char :=
  String.toList "CLEAN BMAJ"

/-- The history loop of the constructor: for every line containing the marker
`CLEAN BMAJ`, split the line on whitespace and overwrite bmaj with token 3 and
bmin with token 5 (0-based), parsed as floats.  A missing token models the
IndexError of `bits[3]`, an unparsable token the ValueError of `float()`;
neither is caught by the source (its try only catches the KeyError of a
missing HISTORY).  A later matching line overwrites an earlier one. -/
def historyScan : Option ℚ → Option ℚ → List (List Char) →
    Except PyError (Option ℚ × Option ℚ)
  | bm, bn, [] => .ok (bm, bn)
  | bm, bn, l :: rest =>
    if strContains cleanMarker l then
      match (splitWS l)[3]? with
      | none => .error .indexError
      | some t3 =>
        match parseFloat t3 with
        | none => .error .valueError
        | some v3 =>
          match (splitWS l)[5]? with
          | none => .error .indexError
          | some t5 =>
            match parseFloat t5 with
            | none => .error .valueError
            | some v5 => historyScan (some v3) (some v5) rest
    else historyScan bm bn rest

/-- Unit resolution of the constructor: BUNIT, then the fallback UNIT.  The
resolved unit only feeds a warning print, never control flow. -/
def resolveUnits (h : Header) : Option (List Char) :=
  match h.scard "BUNIT" with
  | some u => some u
  | none => h.scard "UNIT"

/-- Beam-axis resolution of the constructor, lines 59-76 of the source:
direct keys BMAJ/BMIN; when BMAJ is absent both axes are overwritten from
RESOL1/RESOL2; when bmaj is still unresolved the history log is scanned
(a missing HISTORY card is the caught KeyError, leaving the axes as they
were).  Note the guards test only bmaj, never bmin. -/
def resolveBeam (h : Header) : Except PyError (Option ℚ × Option ℚ) :=
  let p1 : Option ℚ × Option ℚ :=
    match h.card "BMAJ" with
    | none => (h.card "RESOL1", h.card "RESOL2")
    | some v => (some v, h.card "BMIN")
  match p1.1 with
  | none =>
    match h.history with
    | none => .ok p1
    | some ls => historyScan p1.1 p1.2 ls
  | some _ => .ok p1

/-- Modelled from the spec: pixel scale of axis 1 as exposed by the external
astropy WCS object built from the header (`w.wcs.cdelt[0]`), negated by the
source; astropy defaults an absent scale to 1. -/
def cd1 (h : Header) : ℚ :=
  -((h.card "CDELT1").getD 1)

/-- Modelled from the spec: pixel scale of axis 2 (`w.wcs.cdelt[1]`). -/
def cd2 (h : Header) : ℚ :=
  (h.card "CDELT2").getD 1

/-- The measurement-ready map produced by the constructor: resolved unit
string, beam axes in pixel units, flattened 2-axis header and 2D data plane.
The beam solid angle is the derived function RadioMap.area below, and the
frequency attribute is omitted: its resolution can only print a warning and
never raises, so it is irrelevant to every behavioural claim. -/
structure RadioMap where
  units : Option (List Char)
  bmaj : ℚ
  bmin : ℚ
  fhead : Header
  d : NDData
deriving DecidableEq

/-- The radiomap constructor (class radiomap.__init__), in source order:
resolve units, resolve the beam axes, raise RadioError when bmaj is still
unresolved, run the pixel-squareness check, convert the axes to pixel units,
and finally flatten the file.  The squareness check of the source is
`((cd1-cd2)/cd1)>1.0001 and ((bmaj-bmin)/bmin)>1.0001`, whose second conjunct
reads the unbound local names bmaj and bmin (the values live in self.bmaj and
self.bmin), so whenever the first conjunct is true Python raises NameError
before the RadioError statement can run; the translation reflects that.  With
bmin unresolved, `self.bmin/=cd2` is None divided by a float: TypeError. -/
def radiomap (f : FitsHDU) : Except PyError RadioMap :=
  let units := resolveUnits f.header
  match resolveBeam f.header with
  | .error e => .error e
  | .ok (bmaj2, bmin2) =>
    match bmaj2 with
    | none => .error (.radioError "No beam information found")
    | some bmaj =>
      if (cd1 f.header - cd2 f.header) / cd1 f.header > 1.0001 then .error .nameError
      else
        match bmin2 with
        | none => .error .typeError
        | some bmin =>
          match flatten f with
          | .error e => .error e
          | .ok (fh, d2) =>
            .ok ⟨units, bmaj / cd1 f.header, bmin / cd2 f.header, fh, d2⟩

/-- Whether the constructor produced a map. -/
def rmOk : Except PyError RadioMap → Bool
  | .ok _ => true
  | .error _ => false

/-- A heap of numpy float arrays, addressed by allocation order.  Arrays are
mutable objects in the source; modelling them in an explicit store lets the
frame claim about applyregion (no mutation of pre-existing arrays) be stated
rather than assumed. -/
structure Store where
  arrs : List (List ℚ)
deriving DecidableEq

/-- Contents of the array at an address. -/
def Store.read (s : Store) (a : Nat) : List ℚ :=
  (s.arrs.get? a).getD []

/-- Allocate a fresh array; its address is the pre-allocation length. -/
def Store.alloc (s : Store) (xs : List ℚ) : Store :=
  ⟨s.arrs ++ [xs]⟩

/-- In-place overwrite of the array at an address. -/
def Store.write (s : Store) (a : Nat) (xs : List ℚ) : Store :=
  ⟨s.arrs.set a xs⟩

/-- numpy.extract(mask, d): both arguments flattened row-major, the elements
of d where the mask is true, as a fresh 1-D array (numpy.extract copies). -/
def extractL (mask : List Bool) (xs : List ℚ) : List ℚ :=
  (mask.zip xs).filterMap fun p => if p.1 then some p.2 else none

/-- The result record of applyregion: the pixel count, the final contents of
the extracted array (after the in-place background subtraction) from which
every statistic is computed, and the address of that array. -/
structure ApplyResult where
  pixels : Nat
  vals : List ℚ
  dataAddr : Nat
deriving DecidableEq

/-- applyregion (class applyregion.__init__) on the store holding the map
pixel data at dAddr: default the background to 0, count the mask, extract the
masked pixels into a fresh array (a copy), subtract the background from that
array in place, and read the statistics off it.  The mask itself comes from
the external pyregion get_mask and is an input here. -/
def applyregion (s : Store) (dAddr : Nat) (mask : List Bool) (bg : Option ℚ) :
    ApplyResult × Store :=
  let bgval := bg.getD 0
  let pixels := mask.count true
  let extracted := extractL mask (s.read dAddr)
  let a := s.arrs.length
  let s1 := s.alloc extracted
  let subbed := (s1.read a).map fun x => x - bgval
  let s2 := s1.write a subbed
  (⟨pixels, s2.read a, a⟩, s2)

/-- A radiomap together with the store in which its flattened pixel array
lives (at dAddr).  The source applyregion receives the map object; nothing in
it ever assigns to the map attributes, which the wrapper below makes
explicit by passing the map through unchanged. -/
structure MapState where
  rm : RadioMap
  dAddr : Nat
  store : Store
deriving DecidableEq

/-- applyregion at the level of a map-plus-store state. -/
def applyregionM (ms : MapState) (mask : List Bool) (bg : Option ℚ) :
    ApplyResult × MapState :=
  let rs := applyregion ms.store ms.dAddr mask bg
  (rs.1, ⟨ms.rm, ms.dAddr, rs.2⟩)

/-- gfactor of the constructor: 2*sqrt(2*log(2)), the FWHM-to-sigma Gaussian
conversion constant. -/
noncomputable def gfactor : ℝ :=
  2 * Real.sqrt (2 * Real.log 2)

/-- Line 114 of the source: beam solid angle in pixel units,
2*pi*(bmaj*bmin)/(gfactor*gfactor), as a function of the pixel-unit axes. -/
noncomputable def beamArea (bmajPx bminPx : ℚ) : ℝ :=
  2 * Real.pi * ((bmajPx : ℝ) * (bminPx : ℝ)) / (gfactor * gfactor)

/-- The area attribute of a constructed map: the source computes it in the
constructor from the stored pixel-unit axes; it is exactly this function of
the two stored fields. -/
noncomputable def RadioMap.area (rm : RadioMap) : ℝ :=
  beamArea rm.bmaj rm.bmin

/-- The error formula of line 134: noise times the square root of the pixel
count divided by the beam area. -/
noncomputable def propError (noise : ℚ) (pixels : Nat) (area : ℝ) : ℝ :=
  (noise : ℝ) * Real.sqrt ((pixels : ℝ) / area)

/-- The error attribute, set only when an offsource noise value is supplied:
`self.error=extras[offsource]*np.sqrt(self.pixels/rm.area)`. -/
noncomputable def ApplyResult.error (r : ApplyResult) (rm : RadioMap) (noise : ℚ) : ℝ :=
  propError noise r.pixels rm.area

/-- The mean attribute: numpy mean of the final array contents. -/
def ApplyResult.mean (r : ApplyResult) : ℚ :=
  r.vals.sum / (r.vals.length : ℚ)

/-- The rms attribute: numpy population standard deviation of the final array
contents. -/
noncomputable def ApplyResult.rms (r : ApplyResult) : ℝ :=
  Real.sqrt (((((r.vals.map fun x => (x - r.mean) ^ 2).sum / (r.vals.length : ℚ) : ℚ)) : ℝ))

/-- The flux attribute: sum of the final array contents over the beam area. -/
noncomputable def ApplyResult.flux (r : ApplyResult) (rm : RadioMap) : ℝ :=
  ((r.vals.sum : ℝ)) / rm.area

/-- The spec rejection case for the geometry check: CDELT1=-1 and CDELT2=2
give cd1=1 and cd2=2, with an elliptical beam bmaj=1, bmin=2. -/
def hduNonSquare : FitsHDU :=
  ⟨⟨some 2, [("BMAJ", 1), ("BMIN", 2), ("CDELT1", -1), ("CDELT2", 2)], [], none⟩,
   ⟨[2, 2], [0, 0, 0, 0]⟩⟩

/-- A header resolving bmaj from BMAJ but leaving bmin unresolved: BMIN,
RESOL1, RESOL2 and HISTORY are all absent. -/
def hduOnlyBmaj : FitsHDU :=
  ⟨⟨some 2, [("BMAJ", 3), ("CDELT1", -1), ("CDELT2", 1)], [], none⟩,
   ⟨[2, 2], [0, 0, 0, 0]⟩⟩

/-- A header with no beam information at all. -/
def hduNoBeam : FitsHDU :=
  ⟨⟨some 2, [("CDELT1", -1), ("CDELT2", 1)], [], none⟩,
   ⟨[2, 2], [0, 0, 0, 0]⟩⟩

/-- A header carrying the direct beam keys plus decoy fallback keys and a
decoy history line, to exercise the resolution order. -/
def hduDirectBeam : FitsHDU :=
  ⟨⟨some 2,
    [("BMAJ", 2), ("BMIN", 1), ("RESOL1", 9), ("RESOL2", 8),
     ("CDELT1", -1), ("CDELT2", 1)], [],
    some [String.toList "AIPS CLEAN BMAJ=  0.111 BMIN=  0.222"]⟩,
   ⟨[2, 2], [0, 0, 0, 0]⟩⟩

/-- A header with the fallback keys RESOL1/RESOL2 but no BMAJ, plus a decoy
history line. -/
def hduResolBeam : FitsHDU :=
  ⟨⟨some 2,
    [("RESOL1", 9), ("RESOL2", 8), ("CDELT1", -1), ("CDELT2", 1)], [],
    some [String.toList "AIPS CLEAN BMAJ=  0.111 BMIN=  0.222"]⟩,
   ⟨[2, 2], [0, 0, 0, 0]⟩⟩

/-- A CLEAN history line whose whitespace tokens 3 and 5 are 0.010 and
0.020. -/
def lineCleanA : List Char :=
  String.toList "AIPS CLEAN BMAJ=  0.010 BMIN=  0.020"

/-- A CLEAN history line whose whitespace tokens 3 and 5 are 0.005 and
0.003. -/
def lineCleanB : List Char :=
  String.toList "AIPS CLEAN BMAJ=  0.005 BMIN=  0.003"

/-- A header with no direct beam keys whose history holds one CLEAN line. -/
def hduHistBeam : FitsHDU :=
  ⟨⟨some 2, [("CDELT1", -1), ("CDELT2", 1)], [], some [lineCleanB]⟩,
   ⟨[2, 2], [0, 0, 0, 0]⟩⟩

/-- A header with no direct beam keys whose history holds two CLEAN lines
with different values. -/
def hduTwoClean : FitsHDU :=
  ⟨⟨some 2, [("CDELT1", -1), ("CDELT2", 1)], [], some [lineCleanA, lineCleanB]⟩,
   ⟨[2, 2], [1, 2, 3, 4]⟩⟩

/-- The map that the constructor builds from hduTwoClean: the beam values of
the last CLEAN line, divided by the pixel scales cd1=1 and cd2=1. -/
def rmTwoClean : RadioMap :=
  ⟨none, 0.005, 0.003, hduTwoClean.header, hduTwoClean.data⟩

/-- A one-axis image. -/
def hduOneAxis : FitsHDU :=
  ⟨⟨some 1, [], [], none⟩, ⟨[4], [1, 2, 3, 4]⟩⟩

/-- A three-axis image of shape 2x2x2 with eight distinct cells. -/
def hduCube : FitsHDU :=
  ⟨⟨some 3, [("CDELT1", -1), ("CDELT2", 1)], [], none⟩,
   ⟨[2, 2, 2], [0, 1, 2, 3, 4, 5, 6, 7]⟩⟩

/-- A small map state: a map whose four flattened pixels live at store
address 0. -/
def msSmall : MapState :=
  ⟨⟨none, 1, 1, hduNonSquare.header, hduNonSquare.data⟩, 0, ⟨[[1, 2, 3, 4]]⟩⟩

/-- A mask selecting two of the four pixels of msSmall. -/
def maskSmall : List Bool :=
  [true, false, true, false]

/-! Helper lemmas about the history scan. -/

/-- Scanning lines none of which contain the marker leaves the axes as they
were. -/
theorem historyScan_noMatch (bm bn : Option ℚ) (ls : List (List Char))
    (h : ∀ l ∈ ls, strContains cleanMarker l = false) :
    historyScan bm bn ls = .ok (bm, bn) := by
  induction ls with
  | nil => rfl
  | cons l t ih =>
    have hl : strContains cleanMarker l = false := h l (by simp)
    have ht : ∀ x ∈ t, strContains cleanMarker x = false := fun x hx => h x (by simp [hx])
    simp [historyScan, hl, ih ht]

/-- A successful scan of a concatenation factors into a successful scan of
the first part followed by a successful scan of the second from the
intermediate state. -/
theorem historyScan_append (xs zs : List (List Char)) (bm bn : Option ℚ)
    (r : Option ℚ × Option ℚ) (h : historyScan bm bn (xs ++ zs) = .ok r) :
    ∃ p : Option ℚ × Option ℚ,
      historyScan bm bn xs = .ok p ∧ historyScan p.1 p.2 zs = .ok r := by
  induction xs generalizing bm bn with
  | nil => exact ⟨(bm, bn), rfl, h⟩
  | cons l t ih =>
    by_cases hc : strContains cleanMarker l = true
    · rcases e3 : (splitWS l)[3]? with _ | t3
      · simp [historyScan, hc, e3] at h
      · rcases e4 : parseFloat t3 with _ | v3
        · simp [historyScan, hc, e3, e4] at h
        · rcases e5 : (splitWS l)[5]? with _ | t5
          · simp [historyScan, hc, e3, e4, e5] at h
          · rcases e6 : parseFloat t5 with _ | v5
            · simp [historyScan, hc, e3, e4, e5, e6] at h
            · have h' : historyScan (some v3) (some v5) (t ++ zs) = .ok r := by
                simpa [historyScan, hc, e3, e4, e5, e6] using h
              obtain ⟨p, hp1, hp2⟩ := ih _ _ h'
              exact ⟨p, by simp [historyScan, hc, e3, e4, e5, e6, hp1], hp2⟩
    · have hc' : strContains cleanMarker l = false := by simpa using hc
      have h' : historyScan bm bn (t ++ zs) = .ok r := by
        simpa [historyScan, hc'] using h
      obtain ⟨p, hp1, hp2⟩ := ih _ _ h'
      exact ⟨p, by simpa [historyScan, hc'] using hp1, hp2⟩

/-- When the last marker-containing line parses to (a, b), any successful
scan ends in exactly (some a, some b). -/
theorem historyScan_lastMatch (xs ys : List (List Char)) (l : List Char)
    (bm bn : Option ℚ) (a b : ℚ) (t3 t5 : List Char)
    (hm : strContains cleanMarker l = true)
    (h3 : (splitWS l)[3]? = some t3) (hp3 : parseFloat t3 = some a)
    (h5 : (splitWS l)[5]? = some t5) (hp5 : parseFloat t5 = some b)
    (hys : ∀ x ∈ ys, strContains cleanMarker x = false)
    (r : Option ℚ × Option ℚ)
    (h : historyScan bm bn (xs ++ l :: ys) = .ok r) :
    r = (some a, some b) := by
  obtain ⟨p, _, hp2⟩ := historyScan_append xs (l :: ys) bm bn r h
  simp [historyScan, hm, h3, hp3, h5, hp5] at hp2
  rw [historyScan_noMatch _ _ ys hys] at hp2
  exact (Except.ok.inj hp2).symm

/-- C1: evaluating the constructor at the case the spec requires to be
rejected (cd1=1, cd2=2 from CDELT1=-1, CDELT2=2, with beam bmaj=1, bmin=2)
shows that the map is accepted.  The source compares (cd1-cd2)/cd1 = -1
against the threshold 1.0001 instead of testing a 0.0001 relative
difference, so the rejection branch does not fire here; moreover, whenever
that comparison is true the source reads the unbound local names bmaj and
bmin, so the RadioError of the check is unreachable (a NameError would be
raised first). -/
theorem radiomap_accepts_nonsquare_elliptical :
    rmOk (radiomap hduNonSquare) = true := by
  simp [radiomap, resolveBeam, hduNonSquare, Header.card, List.lookup, cd1, cd2,
    flatten, rmOk]
  norm_num

/-- C2 counterexample: a header carrying BMAJ=3 but no BMIN, RESOL or
HISTORY leaves beam resolution with bmaj resolved and bmin unresolved and
raises no RadioError; construction then fails with a TypeError (None divided
by the pixel scale), not with RadioError("No beam information found"). -/
theorem radiomap_partial_beam_counterexample :
    resolveBeam hduOnlyBmaj.header = .ok (some 3, none) ∧
    radiomap hduOnlyBmaj = .error .typeError := by
  constructor
  · rfl
  · simp [radiomap, resolveBeam, hduOnlyBmaj, Header.card, List.lookup, cd1, cd2]
    norm_num

/-- C2 (amended): a map is only ever constructed when both axes resolved;
when bmaj is unresolved construction fails with
RadioError("No beam information found"); but when bmaj resolves and bmin
does not, no RadioError is raised and construction fails with a TypeError
at the pixel-unit conversion instead (provided the pixel-scale comparison
does not fire first). -/
theorem radiomap_beam_invariant (f : FitsHDU) :
    (∀ rm : RadioMap, radiomap f = .ok rm →
      ∃ a b : ℚ, resolveBeam f.header = .ok (some a, some b)) ∧
    (∀ b2 : Option ℚ, resolveBeam f.header = .ok (none, b2) →
      radiomap f = .error (.radioError "No beam information found")) ∧
    (∀ a : ℚ, resolveBeam f.header = .ok (some a, none) →
      ¬((cd1 f.header - cd2 f.header) / cd1 f.header > 1.0001) →
      radiomap f = .error .typeError) := by
  refine ⟨?_, ?_, ?_⟩
  · intro rm hok
    rcases hr : resolveBeam f.header with e | ⟨b1, b2⟩
    · simp [radiomap, hr] at hok
    · rcases b1 with _ | a
      · simp [radiomap, hr] at hok
      · rcases b2 with _ | b
        · simp [radiomap, hr] at hok
          split at hok
          · exact Except.noConfusion hok
          · exact Except.noConfusion hok
        · exact ⟨a, b, rfl⟩
  · intro b2 hr
    simp [radiomap, hr]
  · intro a hr hcond
    simp [radiomap, hr, hcond]

/-- C2 witness: the two failure shapes at concrete headers. -/
theorem radiomap_beam_invariant_witness :
    radiomap hduNoBeam = .error (.radioError "No beam information found") ∧
    radiomap hduOnlyBmaj = .error .typeError := by
  constructor
  · exact (radiomap_beam_invariant hduNoBeam).2.1 none rfl
  · exact (radiomap_beam_invariant hduOnlyBmaj).2.2 3 rfl
      (by simp [cd1, cd2, Header.card, List.lookup, hduOnlyBmaj]; norm_num)

/-- C3: when the direct keys BMAJ and BMIN are present they alone determine
the resolved axes, whatever RESOL1/RESOL2 and the history hold; and when
BMAJ is absent but RESOL1 present, the axes come from RESOL1/RESOL2,
whatever the history holds — history parsing is reached only when both
fail. -/
theorem resolveBeam_prefers_direct (h : Header) :
    (∀ a b : ℚ, h.card "BMAJ" = some a → h.card "BMIN" = some b →
      resolveBeam h = .ok (some a, some b)) ∧
    (∀ r : ℚ, h.card "BMAJ" = none → h.card "RESOL1" = some r →
      resolveBeam h = .ok (some r, h.card "RESOL2")) := by
  constructor
  · intro a b h1 h2
    simp [resolveBeam, h1, h2]
  · intro r h1 h2
    simp [resolveBeam, h1, h2]

/-- C3 witness: headers carrying decoy fallback keys and a decoy CLEAN
history line resolve from the direct keys, and from RESOL1/RESOL2 when BMAJ
is absent. -/
theorem resolveBeam_prefers_direct_witness :
    resolveBeam hduDirectBeam.header = .ok (some 2, some 1) ∧
    resolveBeam hduResolBeam.header =
      .ok (some 9, Header.card hduResolBeam.header "RESOL2") := by
  constructor
  · exact (resolveBeam_prefers_direct hduDirectBeam.header).1 2 1 rfl rfl
  · exact (resolveBeam_prefers_direct hduResolBeam.header).2 9 rfl rfl

/-- C4: with no direct beam keys and a single history line containing the
marker CLEAN BMAJ, the line is split on whitespace and its 4th and 6th
tokens (0-based indices 3 and 5) are parsed as bmaj and bmin. -/
theorem resolveBeam_history_parse (h : Header) (l t3 t5 : List Char) (a b : ℚ)
    (hB : h.card "BMAJ" = none) (hR : h.card "RESOL1" = none)
    (hH : h.history = some [l])
    (hm : strContains cleanMarker l = true)
    (h3 : (splitWS l)[3]? = some t3) (hp3 : parseFloat t3 = some a)
    (h5 : (splitWS l)[5]? = some t5) (hp5 : parseFloat t5 = some b) :
    resolveBeam h = .ok (some a, some b) := by
  simp [resolveBeam, hB, hR, hH, historyScan, hm, h3, hp3, h5, hp5]

/-- C4 witness: the line with tokens 0.005 and 0.003 resolves those values. -/
theorem resolveBeam_history_parse_witness :
    resolveBeam hduHistBeam.header = .ok (some 0.005, some 0.003) := by
  exact resolveBeam_history_parse hduHistBeam.header lineCleanB
    (String.toList "0.005") (String.toList "0.003") 0.005 0.003
    rfl rfl rfl (by decide) (by decide)
    (by simp [parseFloat, parseUFloat, digitsToNat, allDigits]; norm_num)
    (by decide)
    (by simp [parseFloat, parseUFloat, digitsToNat, allDigits]; norm_num)

/-- C6: flatten passes an exactly-2-axis image through with header and data
untouched, and rejects an image with fewer than 2 axes with a RadioError. -/
theorem flatten_naxis2_identity (f : FitsHDU) :
    (f.header.naxis = some 2 → flatten f = .ok (f.header, f.data)) ∧
    (∀ n : Nat, f.header.naxis = some n → n < 2 →
      flatten f = .error (.radioError "Cant make map from this")) := by
  constructor
  · intro h2
    simp [flatten, h2]
  · intro n hn hlt
    simp [flatten, hn, hlt]

/-- C6 witness: pass-through at a 2-axis image and rejection at a 1-axis
image. -/
theorem flatten_naxis2_identity_witness :
    flatten hduNonSquare = .ok (hduNonSquare.header, hduNonSquare.data) ∧
    flatten hduOneAxis = .error (.radioError "Cant make map from this") := by
  constructor
  · exact (flatten_naxis2_identity hduNonSquare).1 rfl
  · exact (flatten_naxis2_identity hduOneAxis).2 1 rfl (by norm_num)

/-- C10: when the history log holds several CLEAN BMAJ lines, the scan does
not stop at the first match: whenever construction succeeds, the beam fields
of the constructed map are the values parsed from the last matching line,
divided by the pixel scales. -/
theorem radiomap_history_last_match (f : FitsHDU) (xs ys : List (List Char))
    (l t3 t5 : List Char) (a b : ℚ) (rm : RadioMap)
    (hB : f.header.card "BMAJ" = none) (hR : f.header.card "RESOL1" = none)
    (hH : f.header.history = some (xs ++ l :: ys))
    (hm : strContains cleanMarker l = true)
    (h3 : (splitWS l)[3]? = some t3) (hp3 : parseFloat t3 = some a)
    (h5 : (splitWS l)[5]? = some t5) (hp5 : parseFloat t5 = some b)
    (hys : ∀ x ∈ ys, strContains cleanMarker x = false)
    (hok : radiomap f = .ok rm) :
    rm.bmaj = a / cd1 f.header ∧ rm.bmin = b / cd2 f.header := by
  have hrb : resolveBeam f.header =
      historyScan none (f.header.card "RESOL2") (xs ++ l :: ys) := by
    simp [resolveBeam, hB, hR, hH]
  rcases hs : historyScan none (f.header.card "RESOL2") (xs ++ l :: ys) with e | r
  · rw [radiomap, hrb, hs] at hok
    exact Except.noConfusion hok
  · have hr : r = (some a, some b) :=
      historyScan_lastMatch xs ys l none (f.header.card "RESOL2") a b t3 t5
        hm h3 hp3 h5 hp5 hys r hs
    rw [radiomap, hrb, hs, hr] at hok
    simp at hok
    split at hok
    · exact Except.noConfusion hok
    · rcases hfl : flatten f with e | pr
      · rw [hfl] at hok
        exact Except.noConfusion hok
      · rw [hfl] at hok
        simp at hok
        rw [← hok]
        exact ⟨rfl, rfl⟩

/-- C10 witness: with two CLEAN lines in the history, the constructed map
carries the values of the second line. -/
theorem radiomap_history_last_match_witness :
    rmTwoClean.bmaj = 0.005 / cd1 hduTwoClean.header ∧
    rmTwoClean.bmin = 0.003 / cd2 hduTwoClean.header := by
  refine radiomap_history_last_match hduTwoClean [lineCleanA] [] lineCleanB
    (String.toList "0.005") (String.toList "0.003") 0.005 0.003 rmTwoClean
    rfl rfl rfl (by decide) (by decide)
    (by simp [parseFloat, parseUFloat, digitsToNat, allDigits]; norm_num)
    (by decide)
    (by simp [parseFloat, parseUFloat, digitsToNat, allDigits]; norm_num)
    (by simp) ?_
  simp [radiomap, resolveBeam, hduTwoClean, Header.card, List.lookup, cd1, cd2,
    flatten, historyScan, lineCleanA, lineCleanB, splitWS, wordsAux, isWS,
    strContains, cleanMarker, parseFloat, parseUFloat, digitsToNat, allDigits,
    rmTwoClean, resolveUnits, Header.scard]
  norm_num [rmTwoClean, hduTwoClean]

/-- The square of the FWHM conversion constant is 8 log 2. -/
theorem gfactor_mul_self : gfactor * gfactor = 8 * Real.log 2 := by
  have h : (0 : ℝ) ≤ 2 * Real.log 2 := by
    have := Real.log_nonneg (by norm_num : (1 : ℝ) ≤ 2)
    linarith
  unfold gfactor
  rw [show 2 * Real.sqrt (2 * Real.log 2) * (2 * Real.sqrt (2 * Real.log 2)) =
    4 * (Real.sqrt (2 * Real.log 2) * Real.sqrt (2 * Real.log 2)) by ring]
  rw [Real.mul_self_sqrt h]
  ring

/-- The beam area at pixel axes 4 and 2 in closed form. -/
theorem beamArea_four_two : beamArea 4 2 = 2 * Real.pi / Real.log 2 := by
  have hne : Real.log 2 ≠ 0 := ne_of_gt (Real.log_pos (by norm_num))
  unfold beamArea
  rw [gfactor_mul_self]
  push_cast
  field_simp
  ring

/-- C5 counterexample: the beam area at bmaj_px=4, bmin_px=2 is below 10, so
it is not approximately 10.666 as the spec asserts. -/
theorem beamArea_not_ten_two_thirds : beamArea 4 2 < 10 := by
  have hlog : (0.6931471803 : ℝ) < Real.log 2 := Real.log_two_gt_d9
  have hpi : Real.pi < 3.141593 := Real.pi_lt_d6
  have hlogpos : (0 : ℝ) < Real.log 2 := by linarith
  rw [beamArea_four_two, div_lt_iff₀ hlogpos]
  nlinarith

/-- C5 (amended): the area is computed as 2 pi bmaj_px bmin_px / g^2 with
g = 2 sqrt(2 log 2), exactly the closed form of the spec; at bmaj_px=4,
bmin_px=2 its value is 2 pi / log 2, which lies between 9.06 and 9.07
(about 9.0647), not near 10.666. -/
theorem beamArea_closed_form :
    (∀ a b : ℚ, beamArea a b =
      2 * Real.pi * ((a : ℝ) * (b : ℝ)) / (2 * Real.sqrt (2 * Real.log 2)) ^ 2) ∧
    beamArea 4 2 = 2 * Real.pi * 4 * 2 / (2 * Real.sqrt (2 * Real.log 2)) ^ 2 ∧
    beamArea 4 2 = 2 * Real.pi / Real.log 2 ∧
    9.06 < beamArea 4 2 ∧ beamArea 4 2 < 9.07 := by
  have h1 : ∀ a b : ℚ, beamArea a b =
      2 * Real.pi * ((a : ℝ) * (b : ℝ)) / (2 * Real.sqrt (2 * Real.log 2)) ^ 2 := by
    intro a b
    unfold beamArea gfactor
    ring
  have hlog : (0.6931471803 : ℝ) < Real.log 2 := Real.log_two_gt_d9
  have hlog2 : Real.log 2 < 0.6931471808 := Real.log_two_lt_d9
  have hpiu : Real.pi < 3.141593 := Real.pi_lt_d6
  have hpil : (3.141592 : ℝ) < Real.pi := Real.pi_gt_d6
  have hlogpos : (0 : ℝ) < Real.log 2 := by linarith
  refine ⟨h1, ?_, beamArea_four_two, ?_, ?_⟩
  · rw [h1]
    push_cast
    ring
  · rw [beamArea_four_two, lt_div_iff₀ hlogpos]
    nlinarith
  · rw [beamArea_four_two, div_lt_iff₀ hlogpos]
    nlinarith

/-- The slicing drops the leading axes from the shape. -/
theorem sliceTo2D_shape (k : Nat) (d : NDData) :
    (sliceTo2D k d).shape = d.shape.drop k := by
  induction k generalizing d with
  | zero => rfl
  | succ k ih =>
    show (sliceTo2D k (slice0 d)).shape = _
    rw [ih (slice0 d)]
    show d.shape.tail.drop k = d.shape.drop (k + 1)
    rw [← List.drop_one, List.drop_drop, Nat.add_comm]

/-- Dropping axes from a shape of positive dimensions does not increase its
cell count. -/
theorem shapeSize_drop_le (l : List Nat) (k : Nat) (hl : ∀ s ∈ l, 1 ≤ s) :
    shapeSize (l.drop k) ≤ shapeSize l := by
  induction l generalizing k with
  | nil => simp
  | cons s ss ih =>
    cases k with
    | zero => exact le_refl _
    | succ k =>
      have h1 : shapeSize (ss.drop k) ≤ shapeSize ss :=
        ih k fun x hx => hl x (List.mem_cons_of_mem _ hx)
      have hs : 1 ≤ s := hl s (List.mem_cons_self _ _)
      calc shapeSize ((s :: ss).drop (k + 1)) = shapeSize (ss.drop k) := rfl
        _ ≤ shapeSize ss := h1
        _ ≤ s * shapeSize ss := Nat.le_mul_of_pos_left _ hs
        _ = shapeSize (s :: ss) := rfl

/-- Within the extent of the resulting plane, the flat storage of the sliced
array agrees with the original flat storage (the selected plane is the
leading block of memory). -/
theorem sliceTo2D_flat_get (k : Nat) (d : NDData) (hl : ∀ s ∈ d.shape, 1 ≤ s)
    (p : Nat) (hp : p < shapeSize (d.shape.drop k)) :
    (sliceTo2D k d).flat.get? p = d.flat.get? p := by
  induction k generalizing d with
  | zero => rfl
  | succ k ih =>
    have hshape : (slice0 d).shape = d.shape.tail := rfl
    have hdrop : d.shape.tail.drop k = d.shape.drop (k + 1) := by
      rw [← List.drop_one, List.drop_drop, Nat.add_comm]
    have hl' : ∀ s ∈ (slice0 d).shape, 1 ≤ s := by
      intro s hs
      rw [hshape] at hs
      cases hd : d.shape with
      | nil => rw [hd] at hs; simp at hs
      | cons x xs =>
        rw [hd] at hs
        exact hl s (by rw [hd]; exact List.mem_cons_of_mem _ hs)
    have hp' : p < shapeSize ((slice0 d).shape.drop k) := by
      rw [hshape, hdrop]
      exact hp
    have hmain := ih (slice0 d) hl' hp'
    show (sliceTo2D k (slice0 d)).flat.get? p = d.flat.get? p
    rw [hmain]
    show (d.flat.take (shapeSize d.shape.tail)).get? p = d.flat.get? p
    have htail : ∀ s ∈ d.shape.tail, 1 ≤ s := by
      intro s hs
      cases hd : d.shape with
      | nil => rw [hd] at hs; simp at hs
      | cons x xs =>
        rw [hd] at hs
        exact hl s (by rw [hd]; exact List.mem_cons_of_mem _ hs)
    have hle : shapeSize (d.shape.drop (k + 1)) ≤ shapeSize d.shape.tail := by
      rw [← hdrop]
      exact shapeSize_drop_le d.shape.tail k htail
    exact List.get?_take (lt_of_lt_of_le hp hle)

/-- Leading zero indices walk into the dropped axes without contributing to
the row-major offset. -/
theorem flatIndex_replicate_zero (k : Nat) (sh ix : List Nat) :
    flatIndex sh (List.replicate k 0 ++ ix) = flatIndex (sh.drop k) ix := by
  induction k generalizing sh with
  | zero => simp
  | succ k ih =>
    cases sh with
    | nil =>
      show flatIndex [] (0 :: (List.replicate k 0 ++ ix)) = flatIndex [] ix
      simp [flatIndex]
    | cons s ss =>
      show flatIndex (s :: ss) (0 :: (List.replicate k 0 ++ ix)) = _
      simp [flatIndex, ih]

/-- C7: for an image with NAXIS = n > 2 (valid dimensions, the last two
being s1 and s2), flatten returns the plane whose shape is the last two
axes and whose entry at row-major position i*s2+j is the original cell at
multi-index (0,...,0,i,j) — index 0 on every axis beyond the two retained
ones, full extent on those two. -/
theorem flatten_selects_plane_zero (f : FitsHDU) (n s1 s2 i j : Nat)
    (hd2 : Header) (d2 : NDData)
    (hn : f.header.naxis = some n) (h2 : 2 < n)
    (hdim : ∀ s ∈ f.data.shape, 1 ≤ s)
    (hsh : f.data.shape.drop (n - 2) = [s1, s2])
    (hi : i < s1) (hj : j < s2)
    (hres : flatten f = .ok (hd2, d2)) :
    d2.shape = [s1, s2] ∧
    d2.flat.get? (i * s2 + j) =
      f.data.flat.get? (flatIndex f.data.shape (List.replicate (n - 2) 0 ++ [i, j])) := by
  have hne : ¬ n < 2 := by omega
  have hne2 : ¬ n = 2 := by omega
  rw [flatten, hn] at hres
  simp [hne, hne2] at hres
  have hd : d2 = sliceTo2D (n - 2) f.data := hres.2.symm
  subst hd
  constructor
  · rw [sliceTo2D_shape, hsh]
  · have hp : i * s2 + j < shapeSize (f.data.shape.drop (n - 2)) := by
      rw [hsh]
      show i * s2 + j < s1 * (s2 * 1)
      have hb : i * s2 + j < s1 * s2 := by
        calc i * s2 + j < i * s2 + s2 := by omega
          _ = (i + 1) * s2 := by ring
          _ ≤ s1 * s2 := Nat.mul_le_mul_right _ (by omega)
      simpa using hb
    rw [sliceTo2D_flat_get (n - 2) f.data hdim _ hp]
    rw [flatIndex_replicate_zero, hsh]
    have hidx : flatIndex [s1, s2] [i, j] = i * s2 + j := by
      simp [flatIndex, shapeSize]
    rw [hidx]

/-- C7 witness: at a 2x2x2 cube, flatten keeps the 2x2 plane and its entry
at position (1,0) is the cube cell (0,1,0). -/
theorem flatten_selects_plane_zero_witness :
    (sliceTo2D 1 hduCube.data).shape = [2, 2] ∧
    (sliceTo2D 1 hduCube.data).flat.get? (1 * 2 + 0) =
      hduCube.data.flat.get? (flatIndex hduCube.data.shape (List.replicate 1 0 ++ [1, 0])) := by
  exact flatten_selects_plane_zero hduCube 3 2 2 1 0
    (flatHeader hduCube.header) (sliceTo2D 1 hduCube.data)
    rfl (by norm_num) (by decide) rfl (by norm_num) (by norm_num) rfl

/-- C8: whenever an offsource noise value is supplied, the error attribute
equals noise times the square root of the mask pixel count over the beam
area; at noise=2, pixelCount=16, beamArea=4 this is 4. -/
theorem applyregion_error_formula :
    (∀ (s : Store) (dAddr : Nat) (mask : List Bool) (bg : Option ℚ)
        (rm : RadioMap) (noise : ℚ),
      ((applyregion s dAddr mask bg).1).error rm noise =
        (noise : ℝ) * Real.sqrt ((mask.count true : ℝ) / rm.area)) ∧
    propError 2 16 4 = 4 := by
  constructor
  · intro s dAddr mask bg rm noise
    rfl
  · unfold propError
    rw [show ((16 : Nat) : ℝ) / (4 : ℝ) = 2 ^ 2 by norm_num]
    rw [Real.sqrt_sq (by norm_num : (0 : ℝ) ≤ 2)]
    norm_num

/-- C9: applyregion mutates no pre-existing array: the map record passes
through unchanged (so its header, data snapshot and beam axes, hence its
beam area, are untouched) and every store address allocated before the call
reads the same afterwards — the background subtraction happens on the fresh
copy made by extract, not on the map pixel array. -/
theorem applyregion_frame (ms : MapState) (mask : List Bool) (bg : Option ℚ)
    (a : Nat) (ha : a < ms.store.arrs.length) :
    (applyregionM ms mask bg).2.rm = ms.rm ∧
    (applyregionM ms mask bg).2.dAddr = ms.dAddr ∧
    (applyregionM ms mask bg).2.store.read a = ms.store.read a := by
  refine ⟨rfl, rfl, ?_⟩
  show Store.read ⟨(ms.store.arrs ++ [extractL mask (ms.store.read ms.dAddr)]).set
    ms.store.arrs.length _⟩ a = ms.store.read a
  unfold Store.read
  rw [List.get?_set_ne _ _ (by omega : ms.store.arrs.length ≠ a)]
  rw [List.get?_append ha]

/-- C9 witness: on a one-array store, the pre-existing array at address 0 is
unchanged by a masked measurement. -/
theorem applyregion_frame_witness :
    (applyregionM msSmall maskSmall none).2.rm = msSmall.rm ∧
    (applyregionM msSmall maskSmall none).2.dAddr = msSmall.dAddr ∧
    (applyregionM msSmall maskSmall none).2.store.read 0 = msSmall.store.read 0 := by
  exact applyregion_frame msSmall maskSmall none 0 (by norm_num [msSmall])
